import Mathlib

set_option allowUnsafeReducibility true
attribute [semireducible] Rat.mul Rat.add Rat.inv Rat.sub Rat.ofScientific

/-!
Verification development for the demand-forecasting engine of the
AI-Multi-Agent-Supply-Chain-Optimizer repository
(`src/agents/demand_forecast_agent.py`, class `DemandForecastAgent`).

Modelling conventions (shallow embedding):

* Python/numpy floats are modelled as exact rationals extended with the
  IEEE-754 special values NaN, +inf and -inf (`FVal`).  Arithmetic on
  `FVal` follows IEEE semantics as realised by numpy/pandas (NaN
  propagates; inf - inf = NaN; inf * 0 = NaN; comparisons with NaN are
  false).  Exact-rational arithmetic stands in for binary floating point;
  no claim depends on rounding error of finite values.
* The square root appearing in `pandas.Series.std` is not rational, so
  the embedding is parametric in a function `sqrtQ : Q -> Q` applied in
  the finite-variance case.  No claim below depends on its values (the
  NaN / inf cases, which the proofs exercise, are independent of it).
* `pandas.DataFrame` inputs are modelled by an optional association list
  of columns whose cells are already coerced through
  `pd.to_numeric(errors="coerce")` (a cell that fails coercion is NaN).
* The statistical fits performed by the external `statsmodels` library
  (`ARIMA(...).fit`, `ExponentialSmoothing(...).fit`,
  `seasonal_decompose`) are not part of this repository's source; the
  outcome of each strategy invocation is therefore a parameter
  (an oracle `String -> Outcome`, resp. `FitCfg -> Option ESFit`),
  while all control flow, counter bookkeeping, data cleaning, storage,
  fallback and reporting logic of the agent itself is embedded from the
  source.  `_moving_average_forecast`, which is pure pandas arithmetic
  in the source, is embedded concretely.
* Python exceptions are modelled by the explicit control flow the source
  gives them: every `try/except` of the source appears as the
  corresponding branch in the embedding (e.g. a missing dictionary key
  raising a swallowed `KeyError` becomes the explicit skip branch).
* Wall-clock timestamps stored in history entries and the fitted
  `self.model` object are omitted: no claim mentions them.  All claims
  use the default argument `periods = 1`.
-/

/-- IEEE-style float value: an exact rational, or NaN, or +inf, or -inf. -/
inductive FVal : Type
  | nan : FVal
  | inf : FVal
  | ninf : FVal
  | num (q : ℚ) : FVal
deriving DecidableEq

namespace FVal

/-- `x != x` test: true exactly for NaN (numpy `isnan`). -/
def isNan : FVal → Bool
  | nan => true
  | _ => false

/-- Finite (an ordinary number): true exactly for `num`. -/
def isFinite : FVal → Bool
  | num _ => true
  | _ => false

/-- Non-negative in the IEEE order (NaN and -inf are not). -/
def isNonneg : FVal → Bool
  | nan => false
  | inf => true
  | ninf => false
  | num q => decide (0 ≤ q)

/-- IEEE strict less-than: any comparison with NaN is false. -/
def lt : FVal → FVal → Bool
  | nan, _ => false
  | _, nan => false
  | ninf, ninf => false
  | ninf, _ => true
  | _, ninf => false
  | inf, _ => false
  | num _, inf => true
  | num a, num b => decide (a < b)

/-- IEEE less-or-equal: any comparison with NaN is false. -/
def le : FVal → FVal → Bool
  | nan, _ => false
  | _, nan => false
  | ninf, _ => true
  | _, ninf => false
  | _, inf => true
  | inf, num _ => false
  | num a, num b => decide (a ≤ b)

/-- IEEE negation. -/
def neg : FVal → FVal
  | nan => nan
  | inf => ninf
  | ninf => inf
  | num q => num (-q)

/-- IEEE addition (inf + -inf = NaN). -/
def add : FVal → FVal → FVal
  | nan, _ => nan
  | _, nan => nan
  | inf, ninf => nan
  | ninf, inf => nan
  | inf, _ => inf
  | _, inf => inf
  | ninf, _ => ninf
  | _, ninf => ninf
  | num a, num b => num (a + b)

/-- IEEE subtraction. -/
def sub (a b : FVal) : FVal := add a (neg b)

/-- IEEE multiplication (inf * 0 = NaN). -/
def mul : FVal → FVal → FVal
  | nan, _ => nan
  | _, nan => nan
  | inf, inf => inf
  | inf, ninf => ninf
  | ninf, inf => ninf
  | ninf, ninf => inf
  | inf, num b => if b = 0 then nan else if 0 < b then inf else ninf
  | num a, inf => if a = 0 then nan else if 0 < a then inf else ninf
  | ninf, num b => if b = 0 then nan else if 0 < b then ninf else inf
  | num a, ninf => if a = 0 then nan else if 0 < a then ninf else inf
  | num a, num b => num (a * b)

/-- IEEE division as numpy performs it (x/0 with x > 0 is +inf, 0/0 is NaN;
the unsigned exact zero of the model is treated as +0). -/
def div : FVal → FVal → FVal
  | nan, _ => nan
  | _, nan => nan
  | inf, inf => nan
  | inf, ninf => nan
  | ninf, inf => nan
  | ninf, ninf => nan
  | num _, inf => num 0
  | num _, ninf => num 0
  | inf, num b => if 0 ≤ b then inf else ninf
  | ninf, num b => if 0 ≤ b then ninf else inf
  | num a, num b =>
      if b = 0 then (if a = 0 then nan else if 0 < a then inf else ninf)
      else num (a / b)

instance : Add FVal := ⟨add⟩
instance : Sub FVal := ⟨sub⟩
instance : Mul FVal := ⟨mul⟩
instance : Div FVal := ⟨div⟩
instance : Neg FVal := ⟨neg⟩

/-- Python `max(a, b)`: returns `b` only when `b > a` holds
(so `max(0, nan) = 0`). -/
def pyMax (a b : FVal) : FVal := if lt a b then b else a

/-- Python `min(a, b)`: returns `b` only when `b < a` holds
(so `min(nan, 1) = nan`). -/
def pyMin (a b : FVal) : FVal := if lt b a then b else a

/-- Round-half-to-even to an integer, the tie rule of Python `round`. -/
def rheInt (x : ℚ) : ℤ :=
  let f := ⌊x⌋
  let r := x - f
  if r < 1/2 then f else if 1/2 < r then f + 1 else if 2 ∣ f then f else f + 1

/-- Python `round(x, d)` on our model (exact rational carriers;
NaN and the infinities round to themselves as in CPython). -/
def roundTo (d : ℕ) : FVal → FVal
  | nan => nan
  | inf => inf
  | ninf => ninf
  | num q => num ((rheInt (q * (10 : ℚ) ^ d) : ℚ) / (10 : ℚ) ^ d)

/-- `round(x, 2)`, as applied to accepted forecasts. -/
def round2 : FVal → FVal := roundTo 2

/-- Sum of a list of float values (numpy reduction order). -/
def lsum : List FVal → FVal
  | [] => num 0
  | x :: xs => add x (lsum xs)

/-- `numpy.mean` / `pandas.Series.mean` on NaN-free data:
sum divided by length (NaN on an empty list, as numpy warns-and-returns). -/
def mean (l : List FVal) : FVal :=
  if l.length = 0 then nan else div (lsum l) (num l.length)

/-- Sample variance with `ddof = 1` (the pandas default); NaN for fewer
than two points, as pandas returns. -/
def variance (l : List FVal) : FVal :=
  if l.length ≤ 1 then nan
  else
    let m := mean l
    div (lsum (l.map (fun x => mul (sub x m) (sub x m)))) (num (l.length - 1))

/-- `pandas.Series.std` (`ddof = 1`): square root of the sample variance.
The square root of a finite non-negative variance is supplied by the
parameter `sq`; the NaN / inf cases are fixed by IEEE semantics. -/
def std (sq : ℚ → ℚ) (l : List FVal) : FVal :=
  match variance l with
  | nan => nan
  | inf => inf
  | ninf => nan
  | num q => if q < 0 then nan else num (sq q)

/-- Insert into an ascending list (sorting step used by quantile). -/
def insertAsc (x : FVal) : List FVal → List FVal
  | [] => [x]
  | y :: ys => if le x y then x :: y :: ys else y :: insertAsc x ys

/-- Ascending insertion sort (NaN-free data only reaches it). -/
def sortAsc (l : List FVal) : List FVal := l.foldr insertAsc []

/-- `pandas.Series.quantile` with the default linear interpolation, on the
already sorted values: index `h = p*(n-1)`, lower cell `i = floor h`, and
the numpy lerp `s[i] + (s[i+1] - s[i]) * (h - i)` (upper index clipped).
The lerp is computed unconditionally, so an infinite neighbour makes the
result NaN even when the fraction is zero, exactly as numpy does. -/
def quantileSorted (s : List FVal) (p : ℚ) : FVal :=
  let n := s.length
  if n = 0 then nan
  else
    let h : ℚ := p * ((n : ℚ) - 1)
    let i : ℕ := (⌊h⌋).toNat
    let g : ℚ := h - (i : ℚ)
    let a := s.getD i nan
    let b := s.getD (min (i + 1) (n - 1)) nan
    add a (mul (sub b a) (num g))

end FVal

/-- A quality issue recorded by `_prepare_and_validate_data` or carried in
the reports.  The source stores formatted strings; here each string is
represented by its constructor (the numeric payload is the number the
format string interpolates). -/
inductive Issue : Type
  | emptyOrNone : Issue
  | missingColumn : Issue
  | negativesRemoved (n : ℕ) : Issue
  | zerosAdjusted (n : ℕ) : Issue
  | insufficientPoints (n : ℕ) : Issue
  | dataLoss : Issue
  | highVariability : Issue
  | manyOutliers (n : ℕ) : Issue
deriving DecidableEq

/-- `quality_report` dictionary of `_prepare_and_validate_data`. -/
structure QualityReport : Type where
  is_valid : Bool
  issues : List Issue
  data_points : ℕ
  missing_values : ℕ
deriving DecidableEq

/-- A pandas DataFrame: named columns of cells.  Cells are shown after
`pd.to_numeric(errors="coerce")`: anything non-numeric is already NaN. -/
structure DataFrame : Type where
  cols : List (String × List FVal)
deriving DecidableEq

/-- `df.empty`: no columns or no rows. -/
def DataFrame.isEmpty (d : DataFrame) : Bool :=
  d.cols.isEmpty || d.cols.any (fun c => c.2.isEmpty)

/-- Column lookup; `none` models the `KeyError` / `not in columns` case. -/
def DataFrame.getCol (d : DataFrame) (k : String) : Option (List FVal) :=
  (d.cols.find? (fun c => c.1 == k)).map (fun c => c.2)

/-- `_prepare_and_validate_data` (source lines 100-183): coerce, count and
drop missing values, drop negatives, replace zeros by 1, then validate:
fewer than 5 remaining points makes the report invalid; further checks
(data loss, coefficient of variation above 2, IQR outliers) only append
issues.  `sq` supplies the square root inside `Series.std`. -/
def prepareAndValidateData (sq : ℚ → ℚ) (df : Option DataFrame) :
    List FVal × QualityReport :=
  match df with
  | none => ([], ⟨false, [Issue.emptyOrNone], 0, 0⟩)
  | some d =>
    if d.isEmpty then ([], ⟨false, [Issue.emptyOrNone], 0, 0⟩)
    else
      match d.getCol "orders" with
      | none => ([], ⟨false, [Issue.missingColumn], 0, 0⟩)
      | some cells =>
        let originalLength := cells.length
        let missingBefore := cells.countP (fun x => x.isNan)
        let noNa := cells.filter (fun x => !x.isNan)
        let negCount := noNa.countP (fun x => FVal.lt x (FVal.num 0))
        let issues1 : List Issue :=
          if 0 < negCount then [Issue.negativesRemoved negCount] else []
        let nonneg :=
          if 0 < negCount then noNa.filter (fun x => FVal.le (FVal.num 0) x)
          else noNa
        let zeroCount := nonneg.countP (fun x => x = FVal.num 0)
        let issues2 : List Issue :=
          if 0 < zeroCount then [Issue.zerosAdjusted zeroCount] else []
        let cleaned :=
          if 0 < zeroCount then
            nonneg.map (fun x => if x = FVal.num 0 then FVal.num 1 else x)
          else nonneg
        let finalLength := cleaned.length
        let issues3 : List Issue :=
          if finalLength < 5 then [Issue.insufficientPoints finalLength]
          else if (finalLength : ℚ) < (originalLength : ℚ) * (0.7 : ℚ) then
            [Issue.dataLoss]
          else []
        let issues4 : List Issue :=
          if 5 ≤ finalLength then
            let sd := FVal.std sq cleaned
            let m := FVal.mean cleaned
            let cv :=
              if FVal.lt (FVal.num 0) m then FVal.div sd m else FVal.inf
            let ia : List Issue :=
              if FVal.lt (FVal.num 2) cv then [Issue.highVariability] else []
            let s := FVal.sortAsc cleaned
            let q1 := FVal.quantileSorted s (1/4)
            let q3 := FVal.quantileSorted s (3/4)
            let iqr := FVal.sub q3 q1
            let lo := FVal.sub q1 (FVal.mul (FVal.num (3/2)) iqr)
            let hi := FVal.add q3 (FVal.mul (FVal.num (3/2)) iqr)
            let outlierCount :=
              cleaned.countP (fun x => FVal.lt x lo || FVal.lt hi x)
            let ib : List Issue :=
              if (finalLength : ℚ) * (0.1 : ℚ) < (outlierCount : ℚ) then
                [Issue.manyOutliers outlierCount]
              else []
            ia ++ ib
          else []
        (cleaned,
         ⟨decide (5 ≤ finalLength), issues1 ++ issues2 ++ issues3 ++ issues4,
          finalLength, missingBefore⟩)

/-- One value of the `model_performance` dictionary. -/
structure Perf : Type where
  success_count : ℕ
  total_attempts : ℕ
deriving DecidableEq

/-- The `model_performance` dictionary: an insertion-ordered map from
method name to counters. -/
def PerfDict : Type := List (String × Perf)

instance : DecidableEq PerfDict := by
  unfold PerfDict
  infer_instance

/-- Dictionary key test (`name in d`). -/
def dictHas (d : PerfDict) (k : String) : Bool :=
  d.any (fun p => p.1 == k)

/-- Dictionary lookup (`d[k]`), `none` modelling `KeyError`. -/
def dictGet (d : PerfDict) (k : String) : Option Perf :=
  (d.find? (fun p => p.1 == k)).map (fun p => p.2)

/-- `d[k]["total_attempts"] += 1` once the key is known present. -/
def incAttempts (d : PerfDict) (k : String) : PerfDict :=
  d.map (fun p =>
    if p.1 == k then (p.1, ⟨p.2.success_count, p.2.total_attempts + 1⟩) else p)

/-- `d[k]["success_count"] += 1` once the key is known present. -/
def incSuccess (d : PerfDict) (k : String) : PerfDict :=
  d.map (fun p =>
    if p.1 == k then (p.1, ⟨p.2.success_count + 1, p.2.total_attempts⟩) else p)

/-- The dictionary `__init__` builds (source lines 44-48): note its keys. -/
def initPerf : PerfDict :=
  [("arima", ⟨0, 0⟩), ("exponential", ⟨0, 0⟩), ("moving_average", ⟨0, 0⟩)]

/-- The dictionary `reset_performance_tracking` installs (lines 673-679). -/
def resetPerf : PerfDict :=
  [("arima", ⟨0, 0⟩), ("exponential_smoothing", ⟨0, 0⟩),
   ("seasonal_decompose", ⟨0, 0⟩), ("moving_average", ⟨0, 0⟩),
   ("trend_forecast", ⟨0, 0⟩)]

/-- The result dictionary a strategy returns on success: its forecast
value and its confidence. -/
structure MRes : Type where
  forecast : FVal
  confidence : FVal
deriving DecidableEq

/-- Outcome of invoking one strategy: it raises, or it returns `None`,
or it returns a result dictionary.  The statistical fitting inside each
strategy is external library code, so the outcome is an oracle input. -/
inductive Outcome : Type
  | raises : Outcome
  | returns (r : Option MRes) : Outcome
deriving DecidableEq

/-- The method list of `_hierarchical_forecast` (lines 190-196), in order. -/
def methodNames : List String :=
  ["arima", "exponential_smoothing", "seasonal_decompose",
   "moving_average", "trend_forecast"]

/-- Result of the cascade: the first accepted method and its result,
or overall failure (`success: False`). -/
inductive CascadeRes : Type
  | ok (method : String) (r : MRes) : CascadeRes
  | failed : CascadeRes
deriving DecidableEq

/-- The loop of `_hierarchical_forecast` (source lines 198-217).  For each
method name, the loop body first increments that method's `attempts`
counter; if the key is absent this raises `KeyError`, which the
surrounding `except` swallows, so the method function is never invoked
and the loop continues.  Otherwise the method is invoked (the third
component records the names actually invoked, in order); an exception or
a `None` / NaN result means continue, and the first non-None result with
a non-NaN forecast is accepted after its `successes` counter increments. -/
def runCascade (oracle : String → Outcome) :
    List String → PerfDict → CascadeRes × PerfDict × List String
  | [], perf => (CascadeRes.failed, perf, [])
  | name :: rest, perf =>
    if dictHas perf name then
      let perf1 := incAttempts perf name
      match oracle name with
      | Outcome.raises =>
        let t := runCascade oracle rest perf1
        (t.1, t.2.1, name :: t.2.2)
      | Outcome.returns none =>
        let t := runCascade oracle rest perf1
        (t.1, t.2.1, name :: t.2.2)
      | Outcome.returns (some res) =>
        if res.forecast.isNan then
          let t := runCascade oracle rest perf1
          (t.1, t.2.1, name :: t.2.2)
        else
          if dictHas perf1 name then
            (CascadeRes.ok name res, incSuccess perf1 name, [name])
          else
            let t := runCascade oracle rest perf1
            (t.1, t.2.1, name :: t.2.2)
    else runCascade oracle rest perf

/-- One stored forecast record (wall-clock timestamp omitted). -/
structure HistEntry : Type where
  forecast : FVal
  method : String
  confidence : FVal
deriving DecidableEq

/-- The mutable state of a `DemandForecastAgent` instance (the fitted
`self.model` object and the constructor argument `arima_order`, which are
only passed to external library calls, are omitted). -/
structure AgentState : Type where
  last_forecast : Option FVal
  forecast_history : List HistEntry
  model_performance : PerfDict
deriving DecidableEq

/-- The state `__init__` establishes (source lines 40-48). -/
def initState : AgentState :=
  ⟨none, [], initPerf⟩

/-- `_store_forecast_result` (lines 501-519): set `last_forecast`, append
one history entry, and truncate the history to its last 100 entries. -/
def storeForecastResult (v : FVal) (method : String) (conf : FVal)
    (st : AgentState) : AgentState :=
  let hist := st.forecast_history ++ [⟨v, method, conf⟩]
  { st with
    last_forecast := some v,
    forecast_history :=
      if 100 < hist.length then hist.drop (hist.length - 100) else hist }

/-- `_get_fallback_forecast` (lines 521-537): last stored forecast if any,
else the mean of the forecasts of the last 5 history entries if the
history is non-empty, else the fixed baseline 100.0. -/
def getFallbackForecast (st : AgentState) : FVal :=
  match st.last_forecast with
  | some v => v
  | none =>
    if st.forecast_history.isEmpty then FVal.num 100
    else
      FVal.mean
        ((st.forecast_history.drop (st.forecast_history.length - 5)).map
          (fun e => e.forecast))

/-- `reset_performance_tracking` (lines 671-681): replace the counter
dictionary (now with five keys) and clear the history; `last_forecast`
is not touched. -/
def resetPerformanceTracking (st : AgentState) : AgentState :=
  { st with model_performance := resetPerf, forecast_history := [] }

/-- `forecast` (source lines 52-98), with `periods = 1`: validate and
clean; on invalid data return the fallback (state unchanged); otherwise
run the cascade; on success clamp `max(0, round(value, 2))`, store it and
return it; when every method fails return the fallback (only the
counters have changed).  The surrounding `try/except` of the source
cannot fire in the model because every internal exception is already
caught where the source catches it, so the function is total. -/
def forecast (sq : ℚ → ℚ) (oracle : String → Outcome)
    (df : Option DataFrame) (st : AgentState) : FVal × AgentState :=
  let pv := prepareAndValidateData sq df
  if pv.2.is_valid = false then
    (getFallbackForecast st, st)
  else
    match runCascade oracle methodNames st.model_performance with
    | (CascadeRes.ok mname res, perf2, _) =>
      let v := FVal.pyMax (FVal.num 0) (FVal.round2 res.forecast)
      let st1 := { st with model_performance := perf2 }
      (v, storeForecastResult v mname res.confidence st1)
    | (CascadeRes.failed, perf2, _) =>
      let st1 := { st with model_performance := perf2 }
      (getFallbackForecast st1, st1)

/-- Keyword arguments actually passed to the `ExponentialSmoothing`
constructor: trend (`some ()` = "add"), seasonal, seasonal_periods. -/
structure FitCfg : Type where
  trend : Option Unit
  seasonal : Option Unit
  seasonal_periods : Option ℕ
deriving DecidableEq

/-- One element of the `configs` list of `_exponential_smoothing_forecast`
(a Python dict): `sp = none` models the `seasonal_periods` KEY BEING
ABSENT from the dict, `sp = some none` the key being present with value
`None`. -/
structure ESCfgEntry : Type where
  trend : Option Unit
  seasonal : Option Unit
  sp : Option (Option ℕ)
deriving DecidableEq

/-- What a successful `ExponentialSmoothing(...).fit()` plus
`forecast(1)` yields: the forecast value and the residual standard
deviation, both produced by external library code (oracle input). -/
structure ESFit : Type where
  forecastVal : FVal
  residStd : FVal
deriving DecidableEq

/-- The seasonal period candidate (source line 286):
`min(12, n // 3)` if `n >= 24`, else `None`. -/
def esSeasonalCandidate (n : ℕ) : Option ℕ :=
  if 24 ≤ n then some (min 12 (n / 3)) else none

/-- The `configs` list (source lines 289-293): only the first dict has a
`seasonal_periods` key; the second and third do not. -/
def esConfigs (n : ℕ) : List ESCfgEntry :=
  [⟨some (), some (), some (esSeasonalCandidate n)⟩,
   ⟨some (), none, none⟩,
   ⟨none, none, none⟩]

/-- Result of `_exponential_smoothing_forecast`: the returned value
(`none` = the method failed and returned None) and, for inspection, the
configurations for which `ExponentialSmoothing(...).fit()` was actually
called, in order. -/
structure ESOut : Type where
  result : Option MRes
  fitted : List FitCfg
deriving DecidableEq

/-- The config loop of `_exponential_smoothing_forecast` (source lines
295-324).  The body begins with `if config["seasonal_periods"] is None:`;
when the dict has no such key this raises `KeyError`, which the
per-config `except` swallows, continuing WITHOUT fitting.  When the key
holds `None` it is popped and `seasonal` is set to `None` before
fitting.  A fit failure continues to the next config; a fit success
returns with confidence `max(0.3, 1 - resid_std / mean(data))`. -/
def esLoop (fit : FitCfg → Option ESFit) (data : List FVal) :
    List ESCfgEntry → ESOut
  | [] => ⟨none, []⟩
  | c :: rest =>
    match c.sp with
    | none => esLoop fit data rest
    | some spv =>
      let cfg : FitCfg :=
        match spv with
        | none => ⟨c.trend, none, none⟩
        | some p => ⟨c.trend, c.seasonal, some p⟩
      match fit cfg with
      | none =>
        let t := esLoop fit data rest
        ⟨t.result, cfg :: t.fitted⟩
      | some f =>
        ⟨some ⟨f.forecastVal,
               FVal.pyMax (FVal.num (3/10))
                 (FVal.sub (FVal.num 1)
                   (FVal.div f.residStd (FVal.mean data)))⟩,
         [cfg]⟩

/-- `_exponential_smoothing_forecast` (source lines 279-330): run the
config loop; if no config fits the trailing `raise ValueError` is caught
by the outer `except`, returning `None`. -/
def expSmoothingForecast (fit : FitCfg → Option ESFit) (data : List FVal) :
    ESOut :=
  esLoop fit data (esConfigs data.length)

/-- The single configuration the loop can ever fit: the first one, after
its in-place mutation when there is no seasonal candidate. -/
def esFirstEffectiveCfg (n : ℕ) : FitCfg :=
  match esSeasonalCandidate n with
  | none => ⟨some (), none, none⟩
  | some p => ⟨some (), some (), some p⟩

/-- `_moving_average_forecast` (source lines 384-434), with `periods = 1`:
pure pandas arithmetic, embedded concretely.  The body has no failing
operation, so the surrounding `except` (which would return `None`) is
dead and the result is always a dictionary. -/
def movingAverageForecast (sq : ℚ → ℚ) (data : List FVal) : Option MRes :=
  let n := data.length
  let window := if 21 ≤ n then 7 else if 10 ≤ n then min 5 (n / 2) else min 3 n
  let maShort := FVal.mean (data.drop (n - window))
  let maLong := FVal.mean (data.drop (n - min (window * 2) n))
  let trendAdj :=
    if 5 ≤ n then
      FVal.mul
        (FVal.div
          (FVal.sub (FVal.mean (data.drop (n - 3)))
            (FVal.mean (data.take 3)))
          (FVal.num n))
        (FVal.num 1)
    else FVal.num 0
  let fv :=
    if 10 ≤ n then
      FVal.add
        (FVal.add (FVal.mul (FVal.num (7/10)) maShort)
          (FVal.mul (FVal.num (3/10)) maLong))
        trendAdj
    else FVal.add maShort trendAdj
  let volatility :=
    if FVal.lt (FVal.num 0) (FVal.mean data) then
      FVal.div (FVal.std sq data) (FVal.mean data)
    else FVal.num 1
  let confidence :=
    FVal.pyMax (FVal.num (3/10))
      (FVal.sub (FVal.num 1) (FVal.pyMin volatility (FVal.num 1)))
  some ⟨fv, confidence⟩

/-- `round(x, 3)` on an exact rational. -/
def round3 (q : ℚ) : ℚ := (FVal.rheInt (q * 1000) : ℚ) / 1000

/-- The `confidence_level` labels. -/
inductive ConfLevel : Type
  | high | medium | low | veryLow
deriving DecidableEq

/-- The `data_quality` labels of the valid branch. -/
inductive DataQualityTag : Type
  | good | fair | poor
deriving DecidableEq

/-- Recommendation strings, by constructor. -/
inductive Recommendation : Type
  | collectMoreData (current : ℕ)
  | investigateVariability
  | tryAlternativeMethods
deriving DecidableEq

/-- Return value of `get_forecast_confidence`.  `poor` is the early
return for invalid data (its fixed fields: level Very Low, score 0.1,
quality Poor, fixed recommendations) and carries the quality issues;
`ok` carries the computed report, ending with the three component
scores (data_quantity, data_quality, model_performance). -/
inductive ConfReport : Type
  | poor (issues : List Issue)
  | ok (level : ConfLevel) (score : ℚ) (dq : DataQualityTag)
    (dataPoints : ℕ) (cv : FVal) (modelPerf : ℚ) (issues : List Issue)
    (recs : List Recommendation) (scores : ℚ × ℚ × ℚ)
deriving DecidableEq

/-- The `component_scores` entry of a confidence report. -/
def componentScores : ConfReport → Option (ℚ × ℚ × ℚ)
  | ConfReport.poor _ => none
  | ConfReport.ok _ _ _ _ _ _ _ _ s => some s

/-- Sum of `total_attempts` over the performance dictionary. -/
def totalAttempts (d : PerfDict) : ℕ :=
  (d.map (fun p => p.2.total_attempts)).sum

/-- Sum of `success_count` over the performance dictionary. -/
def totalSuccesses (d : PerfDict) : ℕ :=
  (d.map (fun p => p.2.success_count)).sum

/-- `get_forecast_confidence` (source lines 539-632).  The method reads
`self.model_performance` but performs no assignment to `self`, which the
returned state (identical to the input state) makes explicit; the
trailing `except` branch is unreachable in the model, as every internal
exception is handled where the source handles it. -/
def getForecastConfidence (sq : ℚ → ℚ) (df : Option DataFrame)
    (st : AgentState) : ConfReport × AgentState :=
  let pv := prepareAndValidateData sq df
  if pv.2.is_valid = false then (ConfReport.poor pv.2.issues, st)
  else
    let data := pv.1
    let n := data.length
    let quantity : ℚ :=
      if 30 ≤ n then 1 else if 14 ≤ n then 8/10
      else if 7 ≤ n then 6/10 else 3/10
    let m := FVal.mean data
    let cv : FVal :=
      if FVal.lt (FVal.num 0) m then FVal.div (FVal.std sq data) m
      else FVal.inf
    let quality : ℚ :=
      if FVal.lt cv (FVal.num (2/10)) then 1
      else if FVal.lt cv (FVal.num (1/2)) then 8/10
      else if FVal.lt cv (FVal.num 1) then 6/10
      else 3/10
    let ta := totalAttempts st.model_performance
    let ts := totalSuccesses st.model_performance
    let perfScore : ℚ := if 0 < ta then (ts : ℚ) / (ta : ℚ) else 7/10
    let overall : ℚ :=
      quantity * (3/10) + quality * (4/10) + perfScore * (3/10)
    let level :=
      if 8/10 ≤ overall then ConfLevel.high
      else if 6/10 ≤ overall then ConfLevel.medium
      else if 4/10 ≤ overall then ConfLevel.low
      else ConfLevel.veryLow
    let recs : List Recommendation :=
      (if n < 30 then [Recommendation.collectMoreData n] else []) ++
      (if FVal.lt (FVal.num (1/2)) cv then
        [Recommendation.investigateVariability] else []) ++
      (if perfScore < 7/10 then [Recommendation.tryAlternativeMethods]
       else [])
    let dq :=
      if 7/10 ≤ quality then DataQualityTag.good
      else if 5/10 ≤ quality then DataQualityTag.fair
      else DataQualityTag.poor
    (ConfReport.ok level (round3 overall) dq n (FVal.roundTo 3 cv)
      (round3 perfScore) pv.2.issues recs
      (round3 quantity, round3 quality, round3 perfScore), st)

/-- Per-method block of the performance report. -/
structure MethodPerf : Type where
  success_rate : ℚ
  total_attempts : ℕ
  successful_forecasts : ℕ
deriving DecidableEq

/-- Return value of `get_model_performance_report`. -/
structure PerfReport : Type where
  total_forecasts : ℕ
  methods_performance : List (String × MethodPerf)
  recent_forecasts : List HistEntry
  last_forecast : Option FVal
  overall_success_rate : ℚ
deriving DecidableEq

/-- `get_model_performance_report` (source lines 634-669): a read-only
report; no assignment to `self` occurs, as the returned state shows. -/
def getModelPerformanceReport (st : AgentState) : PerfReport × AgentState :=
  let methods :=
    (st.model_performance.filter (fun p => 0 < p.2.total_attempts)).map
      (fun p =>
        (p.1,
         MethodPerf.mk
           (round3 ((p.2.success_count : ℚ) / (p.2.total_attempts : ℚ)))
           p.2.total_attempts p.2.success_count))
  let ta := totalAttempts st.model_performance
  let ts := totalSuccesses st.model_performance
  (⟨st.forecast_history.length, methods,
    st.forecast_history.drop (st.forecast_history.length - 10),
    st.last_forecast,
    if 0 < ta then round3 ((ts : ℚ) / (ta : ℚ)) else 0⟩, st)

/-- Modelled from the spec, for comparison with `runCascade` (corrected
acceptance criterion): the first method whose invocation returns a
non-None result with a non-NaN forecast is accepted, in method order. -/
def firstNonNanSuccess (oracle : String → Outcome) :
    List String → CascadeRes
  | [] => CascadeRes.failed
  | n :: rest =>
    match oracle n with
    | Outcome.returns (some r) =>
      if r.forecast.isNan then firstNonNanSuccess oracle rest
      else CascadeRes.ok n r
    | _ => firstNonNanSuccess oracle rest

/-- State sanity predicate: every stored forecast (the `last_forecast`
slot and every history entry) is a non-negative, non-NaN value.  It
holds at construction and is preserved by every operation, since stored
values pass through `max(0, round(., 2))`. -/
def goodState (st : AgentState) : Bool :=
  (match st.last_forecast with
   | none => true
   | some v => v.isNonneg) &&
  st.forecast_history.all (fun e => e.forecast.isNonneg)

/-- Which branch of `_get_fallback_forecast` fires: 1 = stored
`last_forecast`, 2 = mean of recent history, 3 = fixed baseline. -/
def fallbackBranch (st : AgentState) : ℕ :=
  match st.last_forecast with
  | some _ => 1
  | none => if st.forecast_history.isEmpty then 3 else 2

/-- The engine states reachable from construction by any sequence of the
four public operations (each quantified over its inputs and over the
external-library outcomes). -/
inductive Reachable : AgentState → Prop
  | init : Reachable initState
  | step_forecast (sq : ℚ → ℚ) (oracle : String → Outcome)
      (df : Option DataFrame) {st : AgentState} :
      Reachable st → Reachable (forecast sq oracle df st).2
  | step_reset {st : AgentState} :
      Reachable st → Reachable (resetPerformanceTracking st)
  | step_confidence (sq : ℚ → ℚ) (df : Option DataFrame) {st : AgentState} :
      Reachable st → Reachable (getForecastConfidence sq df st).2
  | step_report {st : AgentState} :
      Reachable st → Reachable (getModelPerformanceReport st).2

/-- A placeholder square root for concrete evaluations; the claims below
never reach the finite-variance branch it feeds. -/
def sqrtZero : ℚ → ℚ := fun _ => 0

/-- A valid five-point series of ones. -/
def df5 : DataFrame :=
  ⟨[("orders",
     [FVal.num 1, FVal.num 1, FVal.num 1, FVal.num 1, FVal.num 1])]⟩

/-- Five clean points, the last infinite; survives cleaning unchanged. -/
def dataInf : List FVal :=
  [FVal.num 1, FVal.num 1, FVal.num 1, FVal.num 1, FVal.inf]

/-- A DataFrame whose orders column is `dataInf`. -/
def dfInf : DataFrame := ⟨[("orders", dataInf)]⟩

/-- Oracle under which every strategy raises. -/
def oracleRaisesAll : String → Outcome := fun _ => Outcome.raises

/-- Oracle under which the first invoked strategy returns the
(non-NaN) forecast +inf. -/
def oracleInfArima : String → Outcome :=
  fun _ => Outcome.returns (some ⟨FVal.inf, FVal.num (1/2)⟩)

/-- Oracle under which the first invoked strategy returns 50.0. -/
def oracle50 : String → Outcome :=
  fun _ => Outcome.returns (some ⟨FVal.num 50, FVal.num 1⟩)

/-- The engine state after one successful forecast whose accepted value
is +inf (reachable: the controller accepts any non-NaN value). -/
def stInf : AgentState :=
  (forecast sqrtZero oracleInfArima (some df5) initState).2

/-- One (value, method, confidence) triple as a history entry. -/
def entryOf (e : FVal × String × FVal) : HistEntry := ⟨e.1, e.2.1, e.2.2⟩

/-- Iterated `_store_forecast_result` over a list of results. -/
def iterStore (es : List (FVal × String × FVal)) (st : AgentState) :
    AgentState :=
  es.foldl (fun s e => storeForecastResult e.1 e.2.1 e.2.2 s) st


lemma dictHas_map_keys (d : PerfDict) (f : String × Perf → String × Perf)
    (hf : ∀ p, (f p).1 = p.1) (k : String) :
    dictHas (d.map f) k = dictHas d k := by
  induction d with
  | nil => rfl
  | cons p rest ih =>
    simp only [dictHas, List.map_cons, List.any_cons] at *
    rw [hf p, ih]

lemma dictHas_incAttempts (d : PerfDict) (k k2 : String) :
    dictHas (incAttempts d k2) k = dictHas d k := by
  refine dictHas_map_keys d _ ?_ k
  intro p
  by_cases h : p.1 == k2 <;> simp [h]

lemma dictHas_incSuccess (d : PerfDict) (k k2 : String) :
    dictHas (incSuccess d k2) k = dictHas d k := by
  refine dictHas_map_keys d _ ?_ k
  intro p
  by_cases h : p.1 == k2 <;> simp [h]

lemma dictGet_eq_none_iff (d : PerfDict) (k : String) :
    dictGet d k = none ↔ dictHas d k = false := by
  induction d with
  | nil => simp [dictGet, dictHas]
  | cons p rest ih =>
    by_cases h : p.1 == k <;>
      simp [dictGet, dictHas, List.find?_cons, h, ← ih]

lemma runCascade_absent_key (oracle : String → Outcome) (k : String) :
    ∀ (names : List String) (perf : PerfDict), dictHas perf k = false →
      k ∉ (runCascade oracle names perf).2.2 ∧
      dictHas (runCascade oracle names perf).2.1 k = false := by
  intro names
  induction names with
  | nil =>
    intro perf h
    exact ⟨by simp [runCascade], by simpa [runCascade] using h⟩
  | cons name rest ih =>
    intro perf h
    by_cases hk : dictHas perf name = true
    · have hnk : ¬ (k = name) := by
        intro e
        rw [e, hk] at h
        cases h
      have h1 : dictHas (incAttempts perf name) k = false := by
        rw [dictHas_incAttempts]; exact h
      have hk1 : dictHas (incAttempts perf name) name = true := by
        rw [dictHas_incAttempts]; exact hk
      cases horc : oracle name with
      | raises =>
        have t := ih (incAttempts perf name) h1
        simp [runCascade, hk, horc, hnk, t.1, t.2]
      | returns o =>
        cases o with
        | none =>
          have t := ih (incAttempts perf name) h1
          simp [runCascade, hk, horc, hnk, t.1, t.2]
        | some r =>
          by_cases hn : r.forecast.isNan = true
          · have t := ih (incAttempts perf name) h1
            simp [runCascade, hk, horc, hn, hnk, t.1, t.2]
          · simp only [runCascade, hk, if_true, horc, hn, hk1,
              Bool.not_eq_true] at *
            constructor
            · simp [hn, hnk]
            · simp [hn, dictHas_incSuccess, dictHas_incAttempts, h]
    · have hkf : dictHas perf name = false := by
        cases hq : dictHas perf name
        · rfl
        · exact absurd hq hk
      have t := ih perf h
      simp [runCascade, hkf, t.1, t.2]

lemma runCascade_first_success (oracle : String → Outcome) :
    ∀ (names : List String) (perf : PerfDict),
      (∀ n ∈ names, dictHas perf n = true) →
      (runCascade oracle names perf).1 = firstNonNanSuccess oracle names := by
  intro names
  induction names with
  | nil => intro perf h; rfl
  | cons name rest ih =>
    intro perf h
    have hk : dictHas perf name = true := h name (by simp)
    have hrest : ∀ n ∈ rest, dictHas (incAttempts perf name) n = true := by
      intro n hn
      rw [dictHas_incAttempts]
      exact h n (by simp [hn])
    have hk1 : dictHas (incAttempts perf name) name = true := by
      rw [dictHas_incAttempts]; exact hk
    cases horc : oracle name with
    | raises =>
      simp [runCascade, firstNonNanSuccess, hk, horc,
        ih (incAttempts perf name) hrest]
    | returns o =>
      cases o with
      | none =>
        simp [runCascade, firstNonNanSuccess, hk, horc,
          ih (incAttempts perf name) hrest]
      | some r =>
        by_cases hn : r.forecast.isNan = true
        · simp [runCascade, firstNonNanSuccess, hk, horc, hn,
            ih (incAttempts perf name) hrest]
        · simp [runCascade, firstNonNanSuccess, hk, horc, hn, hk1]

/-- C1: on a freshly constructed engine (no prior reset), the cascade can
never invoke Exponential Smoothing, Seasonal Decomposition or Linear
Trend, whatever the strategies do: incrementing their attempts counter
raises a swallowed `KeyError` first (the `__init__` dictionary has keys
arima / exponential / moving_average only), so after ARIMA fails the
cascade jumps straight to Moving Average; the exponential-smoothing
attempts counter cannot even be read.  This refutes the claimed
arima -> exponential smoothing hand-off. -/
theorem C1_fresh_engine_never_invokes_exponential_smoothing
    (oracle : String → Outcome) :
    "exponential_smoothing" ∉ (runCascade oracle methodNames initPerf).2.2 ∧
    "seasonal_decompose" ∉ (runCascade oracle methodNames initPerf).2.2 ∧
    "trend_forecast" ∉ (runCascade oracle methodNames initPerf).2.2 ∧
    dictGet (runCascade oracle methodNames initPerf).2.1
      "exponential_smoothing" = none ∧
    (runCascade oracleRaisesAll methodNames initPerf).2.2 =
      ["arima", "moving_average"] := by
  refine ⟨(runCascade_absent_key oracle _ methodNames initPerf (by decide)).1,
          (runCascade_absent_key oracle _ methodNames initPerf (by decide)).1,
          (runCascade_absent_key oracle _ methodNames initPerf (by decide)).1,
          ?_, by decide⟩
  rw [dictGet_eq_none_iff]
  exact (runCascade_absent_key oracle _ methodNames initPerf (by decide)).2

/-- C2: whatever the data and however the library fits behave, the
exponential-smoothing loop fits exactly one configuration — the first
one (mutated to (additive trend, no seasonal) when there is no seasonal
candidate).  Configs 2 and 3 read the absent `seasonal_periods` key and
are skipped by the swallowed `KeyError`, so a failing first fit makes
the whole strategy fail without the second configuration being fitted,
refuting the claimed three-configuration fallback. -/
theorem C2_only_first_config_ever_fitted (fit : FitCfg → Option ESFit)
    (data : List FVal) :
    (expSmoothingForecast fit data).fitted =
      [esFirstEffectiveCfg data.length] := by
  unfold expSmoothingForecast esConfigs esFirstEffectiveCfg
  cases hsp : esSeasonalCandidate data.length with
  | none =>
    simp only [esLoop, hsp]
    cases fit ⟨some (), none, none⟩ <;> simp [esLoop]
  | some p =>
    simp only [esLoop, hsp]
    cases fit ⟨some (), some (), some p⟩ <;> simp [esLoop]

/-- C4 (counterexample): from the post-reset counter dictionary, a
strategy returning the non-finite, non-NaN forecast +inf is accepted by
the controller as the overall result — it does not advance to the next
strategy (the invocation trace stops at arima). -/
theorem C4_counterexample_infinite_forecast_accepted :
    (runCascade oracleInfArima methodNames resetPerf).1 =
      CascadeRes.ok "arima" ⟨FVal.inf, FVal.num (1/2)⟩ ∧
    FVal.isFinite FVal.inf = false ∧
    FVal.isNan FVal.inf = false ∧
    (runCascade oracleInfArima methodNames resetPerf).2.2 = ["arima"] := by
  decide

/-- C4 (amended): the controller accepts exactly the first strategy whose
invocation returns a non-None result with a non-NaN forecast; NaN is the
only rejected value, so infinite forecasts are accepted rather than
causing an advance to the next strategy. -/
theorem C4_amended_cascade_accepts_first_non_nan (oracle : String → Outcome) :
    (runCascade oracle methodNames resetPerf).1 =
      firstNonNanSuccess oracle methodNames :=
  runCascade_first_success oracle methodNames resetPerf (by decide)

lemma isNonneg_isNan_false (v : FVal) (h : v.isNonneg = true) :
    v.isNan = false := by
  cases v <;> simp_all [FVal.isNonneg, FVal.isNan]

lemma pyMax0_round2_isNonneg (x : FVal) :
    (FVal.pyMax (FVal.num 0) (FVal.round2 x)).isNonneg = true := by
  cases x with
  | nan => rfl
  | inf => rfl
  | ninf => rfl
  | num q =>
    simp only [FVal.pyMax, FVal.round2, FVal.roundTo, FVal.lt]
    split
    · next h =>
      simp only [FVal.isNonneg, decide_eq_true_eq] at *
      exact le_of_lt h
    · next h =>
      simp [FVal.isNonneg]

lemma lsum_isNonneg (l : List FVal) (h : ∀ x ∈ l, x.isNonneg = true) :
    (FVal.lsum l).isNonneg = true := by
  induction l with
  | nil => rfl
  | cons x xs ih =>
    have hx : x.isNonneg = true := h x (by simp)
    have hs : (FVal.lsum xs).isNonneg = true := ih (fun y hy => h y (by simp [hy]))
    simp only [FVal.lsum]
    cases x with
    | nan => simp [FVal.isNonneg] at hx
    | ninf => simp [FVal.isNonneg] at hx
    | inf =>
      cases hl : FVal.lsum xs <;> rw [hl] at hs <;>
        simp_all [FVal.add, FVal.isNonneg]
    | num a =>
      cases hl : FVal.lsum xs with
      | nan => rw [hl] at hs; simp [FVal.isNonneg] at hs
      | ninf => rw [hl] at hs; simp [FVal.isNonneg] at hs
      | inf => simp [FVal.add, FVal.isNonneg]
      | num b =>
        rw [hl] at hs
        simp only [FVal.isNonneg, decide_eq_true_eq] at hx hs
        simp only [FVal.add, FVal.isNonneg, decide_eq_true_eq]
        exact add_nonneg hx hs

lemma mean_isNonneg (l : List FVal) (h : ∀ x ∈ l, x.isNonneg = true)
    (hne : l ≠ []) : (FVal.mean l).isNonneg = true := by
  have hlen : l.length ≠ 0 := by
    have := List.length_pos.mpr hne
    omega
  have hs := lsum_isNonneg l h
  simp only [FVal.mean, hlen, if_false]
  have hq : (0 : ℚ) ≤ (l.length : ℚ) := by positivity
  cases hl : FVal.lsum l with
  | nan => rw [hl] at hs; simp [FVal.isNonneg] at hs
  | ninf => rw [hl] at hs; simp [FVal.isNonneg] at hs
  | inf =>
    simp only [FVal.div, FVal.isNonneg]
    simp [hq]
  | num a =>
    rw [hl] at hs
    simp only [FVal.isNonneg, decide_eq_true_eq] at hs
    have hz : ¬ ((l.length : ℚ) = 0) := by
      exact_mod_cast hlen
    simp only [FVal.div, hz, if_false, FVal.isNonneg, decide_eq_true_eq]
    positivity

lemma goodState_fields (st : AgentState) (h : goodState st = true) :
    (∀ v, st.last_forecast = some v → v.isNonneg = true) ∧
    (∀ e ∈ st.forecast_history, e.forecast.isNonneg = true) := by
  simp only [goodState, Bool.and_eq_true, List.all_eq_true] at h
  obtain ⟨h1, h2⟩ := h
  constructor
  · intro v hv
    rw [hv] at h1
    exact h1
  · intro e he
    exact h2 e he

lemma getFallbackForecast_isNonneg (st : AgentState)
    (h : goodState st = true) :
    (getFallbackForecast st).isNonneg = true := by
  obtain ⟨h1, h2⟩ := goodState_fields st h
  unfold getFallbackForecast
  cases hl : st.last_forecast with
  | some v => exact h1 v hl
  | none =>
    cases hie : st.forecast_history.isEmpty with
    | true => simp [hie, FVal.isNonneg]
    | false =>
      have hne : st.forecast_history ≠ [] := by
        intro hc
        rw [hc] at hie
        cases hie
      simp only [hie, Bool.false_eq_true, if_false]
      apply mean_isNonneg
      · intro x hx
        simp only [List.mem_map] at hx
        obtain ⟨e, hed, rfl⟩ := hx
        exact h2 e (List.mem_of_mem_drop hed)
      · intro hc
        rw [List.map_eq_nil_iff] at hc
        have hd := List.drop_eq_nil_iff.mp hc
        have hp := List.length_pos.mpr hne
        omega

lemma goodState_set_perf (st : AgentState) (p : PerfDict) :
    goodState { st with model_performance := p } = goodState st := rfl

lemma getFallbackForecast_set_perf (st : AgentState) (p : PerfDict) :
    getFallbackForecast { st with model_performance := p } =
      getFallbackForecast st := rfl

lemma goodState_store (v : FVal) (m : String) (c : FVal) (st : AgentState)
    (hv : v.isNonneg = true) (h : goodState st = true) :
    goodState (storeForecastResult v m c st) = true := by
  simp only [goodState, Bool.and_eq_true, List.all_eq_true] at h
  obtain ⟨h1, h2⟩ := h
  have hall : ∀ e ∈ st.forecast_history ++ [(⟨v, m, c⟩ : HistEntry)],
      e.forecast.isNonneg = true := by
    intro e he
    rcases List.mem_append.mp he with he | he
    · exact h2 e he
    · obtain rfl := List.mem_singleton.mp he
      exact hv
  simp only [goodState, storeForecastResult, Bool.and_eq_true,
    List.all_eq_true]
  refine ⟨hv, ?_⟩
  intro e he
  split at he
  · exact hall e (List.mem_of_mem_drop he)
  · exact hall e he

lemma forecast_snd_cases (sq : ℚ → ℚ) (oracle : String → Outcome)
    (df : Option DataFrame) (st : AgentState) :
    (forecast sq oracle df st).2 = st ∨
    (∃ p2, (forecast sq oracle df st).2 =
      { st with model_performance := p2 }) ∨
    (∃ v m c p2, (forecast sq oracle df st).2 =
      storeForecastResult v m c { st with model_performance := p2 } ∧
      v.isNonneg = true) := by
  by_cases hv : (prepareAndValidateData sq df).2.is_valid = false
  · left
    simp [forecast, hv]
  · rcases hrc : runCascade oracle methodNames st.model_performance with
      ⟨res, perf2, inv⟩
    cases res with
    | ok mname r =>
      right; right
      refine ⟨_, mname, r.confidence, perf2, ?_,
        pyMax0_round2_isNonneg r.forecast⟩
      simp [forecast, hv, hrc]
    | failed =>
      right; left
      exact ⟨perf2, by simp [forecast, hv, hrc]⟩

/-- C3: `forecast` is total in the model (every exception of the source is
caught where the source catches it), and from any sane state — and the
constructed state is sane — its return value is non-negative and not
NaN, and the state stays sane. -/
theorem C3_forecast_total_nonneg_not_nan :
    goodState initState = true ∧
    ∀ (sq : ℚ → ℚ) (oracle : String → Outcome) (df : Option DataFrame)
      (st : AgentState), goodState st = true →
      (forecast sq oracle df st).1.isNonneg = true ∧
      (forecast sq oracle df st).1.isNan = false ∧
      goodState (forecast sq oracle df st).2 = true := by
  refine ⟨by decide, ?_⟩
  intro sq oracle df st h
  have hout : (forecast sq oracle df st).1.isNonneg = true := by
    by_cases hv : (prepareAndValidateData sq df).2.is_valid = false
    · simpa [forecast, hv] using getFallbackForecast_isNonneg st h
    · rcases hrc : runCascade oracle methodNames st.model_performance with
        ⟨res, perf2, inv⟩
      cases res with
      | ok mname r =>
        simpa [forecast, hv, hrc] using pyMax0_round2_isNonneg r.forecast
      | failed =>
        simpa [forecast, hv, hrc, getFallbackForecast_set_perf] using
          getFallbackForecast_isNonneg st h
  refine ⟨hout, isNonneg_isNan_false _ hout, ?_⟩
  rcases forecast_snd_cases sq oracle df st with hc | ⟨p2, hc⟩ |
    ⟨v, m, c, p2, hc, hvn⟩
  · rw [hc]; exact h
  · rw [hc, goodState_set_perf]; exact h
  · rw [hc]
    apply goodState_store _ _ _ _ hvn
    rw [goodState_set_perf]
    exact h

/-- C3 witness: the theorem applied to the constructed engine and an
empty input under an all-raising oracle. -/
theorem C3_witness :
    (forecast sqrtZero oracleRaisesAll none initState).1.isNonneg = true ∧
    (forecast sqrtZero oracleRaisesAll none initState).1.isNan = false ∧
    goodState (forecast sqrtZero oracleRaisesAll none initState).2 = true :=
  C3_forecast_total_nonneg_not_nan.2 sqrtZero oracleRaisesAll none initState
    (by decide)

lemma prep_is_valid_eq (sq : ℚ → ℚ) (df : Option DataFrame) :
    (prepareAndValidateData sq df).2.is_valid =
      decide (5 ≤ (prepareAndValidateData sq df).1.length) := by
  cases df with
  | none => rfl
  | some d =>
    by_cases he : d.isEmpty = true
    · simp [prepareAndValidateData, he]
    · cases hc : d.getCol "orders" with
      | none => simp [prepareAndValidateData, he, hc]
      | some cells => simp [prepareAndValidateData, he, hc]

/-- C5: any input whose cleaned series has fewer than 5 points makes the
validation report invalid, and `forecast` on it returns the fallback
value with the state — counters included — completely unchanged. -/
theorem C5_under_five_points_fallback (sq : ℚ → ℚ)
    (oracle : String → Outcome) (df : Option DataFrame) (st : AgentState)
    (h : (prepareAndValidateData sq df).1.length < 5) :
    (prepareAndValidateData sq df).2.is_valid = false ∧
    forecast sq oracle df st = (getFallbackForecast st, st) := by
  have hval : (prepareAndValidateData sq df).2.is_valid = false := by
    rw [prep_is_valid_eq]
    simp only [decide_eq_false_iff_not]
    omega
  exact ⟨hval, by simp [forecast, hval]⟩

/-- C5 witness: the `None` input leaves 0 points; the fresh engine
returns the fallback unchanged. -/
theorem C5_witness :
    (prepareAndValidateData sqrtZero none).1.length < 5 ∧
    (prepareAndValidateData sqrtZero none).2.is_valid = false ∧
    forecast sqrtZero oracleRaisesAll none initState =
      (getFallbackForecast initState, initState) :=
  ⟨by decide,
   (C5_under_five_points_fallback sqrtZero oracleRaisesAll none initState
     (by decide)).1,
   (C5_under_five_points_fallback sqrtZero oracleRaisesAll none initState
     (by decide)).2⟩

/-- C6 (counterexample): the fallback value need not be finite.  The
series 1,1,1,1,inf passes validation unchanged; the source's own moving
average method computes the non-NaN forecast +inf on it, and the state
`stInf` (produced by one `forecast` call accepting +inf) is reachable;
from it, a failing call returns the stored +inf — not a finite number. -/
theorem C6_counterexample_infinite_fallback :
    (prepareAndValidateData sqrtZero (some dfInf)).2.is_valid = true ∧
    (prepareAndValidateData sqrtZero (some dfInf)).1 = dataInf ∧
    (movingAverageForecast sqrtZero dataInf).map (fun r => r.forecast) =
      some FVal.inf ∧
    stInf.last_forecast = some FVal.inf ∧
    (forecast sqrtZero oracleInfArima none stInf).1 = FVal.inf ∧
    ((forecast sqrtZero oracleInfArima none stInf).1).isFinite = false := by
  decide

/-- C6 (amended): the fallback resolver follows the claimed order of
preference, never raises (it is total), and always returns a
non-negative, non-NaN value — finite except when the stored forecast is
+inf — and on the constructed engine a failing call returns exactly
100.0. -/
theorem C6_amended_fallback_resolver :
    (∀ st : AgentState, goodState st = true →
      (getFallbackForecast st).isNonneg = true ∧
      (getFallbackForecast st).isNan = false ∧
      (∀ v, st.last_forecast = some v → getFallbackForecast st = v) ∧
      (st.last_forecast = none → st.forecast_history = [] →
        getFallbackForecast st = FVal.num 100) ∧
      (st.last_forecast = none → st.forecast_history ≠ [] →
        getFallbackForecast st =
          FVal.mean ((st.forecast_history.drop
            (st.forecast_history.length - 5)).map (fun e => e.forecast)))) ∧
    (forecast sqrtZero oracleRaisesAll none initState).1 = FVal.num 100 := by
  refine ⟨?_, by decide⟩
  intro st h
  have hn := getFallbackForecast_isNonneg st h
  refine ⟨hn, isNonneg_isNan_false _ hn, ?_, ?_, ?_⟩
  · intro v hv
    simp [getFallbackForecast, hv]
  · intro h1 h2
    simp [getFallbackForecast, h1, h2]
  · intro h1 h2
    have hie : st.forecast_history.isEmpty = false := by
      cases hq : st.forecast_history.isEmpty
      · rfl
      · rw [List.isEmpty_iff] at hq
        exact absurd hq h2
    simp [getFallbackForecast, h1, hie]

/-- C6 witness: the amended theorem applied to the constructed engine. -/
theorem C6_amended_witness :
    (getFallbackForecast initState).isNonneg = true ∧
    (getFallbackForecast initState).isNan = false :=
  ⟨(C6_amended_fallback_resolver.1 initState (by decide)).1,
   (C6_amended_fallback_resolver.1 initState (by decide)).2.1⟩

lemma storeForecastResult_history (v : FVal) (m : String) (c : FVal)
    (st : AgentState) :
    (storeForecastResult v m c st).forecast_history =
      (st.forecast_history ++ [HistEntry.mk v m c]).drop
        ((st.forecast_history.length + 1) - 100) := by
  simp only [storeForecastResult]
  split
  · next hgt =>
    congr 1
    simp
  · next hle =>
    simp only [List.length_append, List.length_cons, List.length_nil] at hle
    have h0 : st.forecast_history.length + 1 - 100 = 0 := by omega
    rw [h0, List.drop_zero]

lemma storeForecastResult_length_le (v : FVal) (m : String) (c : FVal)
    (st : AgentState) (h : st.forecast_history.length ≤ 100) :
    (storeForecastResult v m c st).forecast_history.length ≤ 100 := by
  rw [storeForecastResult_history]
  simp only [List.length_drop, List.length_append, List.length_cons,
    List.length_nil]
  omega

lemma iterStore_history :
    ∀ (es : List (FVal × String × FVal)) (st : AgentState),
      st.forecast_history.length ≤ 100 →
      (iterStore es st).forecast_history =
        (st.forecast_history ++ es.map entryOf).drop
          ((st.forecast_history.length + es.length) - 100) := by
  intro es
  induction es with
  | nil =>
    intro st h
    simp only [iterStore, List.foldl_nil, List.map_nil, List.append_nil,
      List.length_nil]
    have h0 : st.forecast_history.length + 0 - 100 = 0 := by omega
    rw [h0, List.drop_zero]
  | cons e es ih =>
    intro st h
    have hlen := storeForecastResult_length_le e.1 e.2.1 e.2.2 st h
    have hstep : iterStore (e :: es) st =
        iterStore es (storeForecastResult e.1 e.2.1 e.2.2 st) := rfl
    rw [hstep, ih _ hlen, storeForecastResult_history]
    have hmk : HistEntry.mk e.1 e.2.1 e.2.2 = entryOf e := rfl
    rw [hmk]
    by_cases hc : st.forecast_history.length + 1 ≤ 100
    · have h0 : st.forecast_history.length + 1 - 100 = 0 := by omega
      rw [h0, List.drop_zero, List.append_assoc, List.singleton_append]
      congr 1
      simp only [List.length_append, List.length_cons, List.length_nil,
        List.length_map, List.map_cons]
      omega
    · have h100 : st.forecast_history.length = 100 := by omega
      have h1 : st.forecast_history.length + 1 - 100 = 1 := by omega
      rw [h1]
      have hdl : (List.drop 1 (st.forecast_history ++ [entryOf e])).length
          = 100 := by
        simp [h100]
      rw [hdl]
      have hk : 100 + es.length - 100 = es.length := by omega
      rw [hk]
      have hsplit : List.drop 1 ((st.forecast_history ++ [entryOf e]) ++
          List.map entryOf es) =
          List.drop 1 (st.forecast_history ++ [entryOf e]) ++
            List.map entryOf es := by
        nth_rewrite 1 [List.drop_append_eq_append_drop]
        have hz : 1 - (st.forecast_history ++ [entryOf e]).length = 0 := by
          simp [h100]
        rw [hz, List.drop_zero]
      rw [← hsplit, List.drop_drop, List.append_assoc, List.singleton_append]
      congr 1
      simp only [List.length_cons, List.map_cons]
      omega

/-- C7: the forecast history is a bounded FIFO: it never exceeds 100
entries across a `forecast` call, and storing 150 results sequentially
from the constructed engine leaves exactly the most recent 100, in
their original order. -/
theorem C7_history_bounded_fifo :
    (∀ (sq : ℚ → ℚ) (oracle : String → Outcome) (df : Option DataFrame)
      (st : AgentState), st.forecast_history.length ≤ 100 →
      (forecast sq oracle df st).2.forecast_history.length ≤ 100) ∧
    (∀ es : List (FVal × String × FVal), es.length = 150 →
      (iterStore es initState).forecast_history =
        (es.map entryOf).drop 50 ∧
      (iterStore es initState).forecast_history.length = 100) := by
  constructor
  · intro sq oracle df st h
    rcases forecast_snd_cases sq oracle df st with hc | ⟨p2, hc⟩ |
      ⟨v, m, c, p2, hc, _⟩
    · rw [hc]; exact h
    · rw [hc]; exact h
    · rw [hc]
      exact storeForecastResult_length_le _ _ _ _ h
  · intro es hlen
    have h1 := iterStore_history es initState (by decide)
    have hh : initState.forecast_history = [] := rfl
    rw [hh] at h1
    simp only [List.nil_append, List.length_nil] at h1
    rw [hlen] at h1
    norm_num at h1
    refine ⟨h1, ?_⟩
    rw [h1]
    simp [hlen]

/-- Entries used by the C7 witness: 150 numbered results. -/
def witnessEntries : List (FVal × String × FVal) :=
  (List.range 150).map (fun i => (FVal.num i, "arima", FVal.num 1))

set_option maxRecDepth 10000 in
/-- C7 witness: the theorem applied to the constructed engine and the
150 concrete entries. -/
theorem C7_witness :
    ((forecast sqrtZero oracleRaisesAll none initState).2
      ).forecast_history.length ≤ 100 ∧
    witnessEntries.length = 150 ∧
    (iterStore witnessEntries initState).forecast_history =
      (witnessEntries.map entryOf).drop 50 ∧
    (iterStore witnessEntries initState).forecast_history.length = 100 :=
  ⟨C7_history_bounded_fifo.1 sqrtZero oracleRaisesAll none initState
     (by decide),
   by decide,
   (C7_history_bounded_fifo.2 witnessEntries (by decide)).1,
   (C7_history_bounded_fifo.2 witnessEntries (by decide)).2⟩

lemma getForecastConfidence_snd (sq : ℚ → ℚ) (df : Option DataFrame)
    (st : AgentState) : (getForecastConfidence sq df st).2 = st := by
  by_cases hv : (prepareAndValidateData sq df).2.is_valid = false
  · simp [getForecastConfidence, hv]
  · simp [getForecastConfidence, hv]

/-- C8: `get_forecast_confidence` is a pure query — it leaves the engine
state (counters, history, last forecast) unchanged, and a second call on
the same unmodified input yields identical component scores. -/
theorem C8_confidence_query_is_pure (sq : ℚ → ℚ) (df : Option DataFrame)
    (st : AgentState) :
    (getForecastConfidence sq df st).2 = st ∧
    componentScores
      (getForecastConfidence sq df ((getForecastConfidence sq df st).2)).1 =
      componentScores (getForecastConfidence sq df st).1 ∧
    (getForecastConfidence sq df st).2.model_performance =
      st.model_performance ∧
    (getForecastConfidence sq df st).2.forecast_history =
      st.forecast_history ∧
    (getForecastConfidence sq df st).2.last_forecast = st.last_forecast := by
  have hsnd := getForecastConfidence_snd sq df st
  exact ⟨hsnd, by rw [hsnd], by rw [hsnd], by rw [hsnd], by rw [hsnd]⟩

lemma forecast_fail_returns_fallback (sq : ℚ → ℚ)
    (oracle : String → Outcome) (df : Option DataFrame) (st : AgentState)
    (h : (prepareAndValidateData sq df).2.is_valid = false ∨
      (runCascade oracle methodNames st.model_performance).1 =
        CascadeRes.failed) :
    (forecast sq oracle df st).1 = getFallbackForecast st := by
  by_cases hv : (prepareAndValidateData sq df).2.is_valid = false
  · simp [forecast, hv]
  · have hfail : (runCascade oracle methodNames st.model_performance).1 =
        CascadeRes.failed := by
      rcases h with h | h
      · exact absurd h hv
      · exact h
    rcases hrc : runCascade oracle methodNames st.model_performance with
      ⟨res, p2, inv⟩
    rw [hrc] at hfail
    cases res with
    | ok mname r => cases hfail
    | failed =>
      simp [forecast, hv, hrc, getFallbackForecast_set_perf]

/-- C9: `reset_performance_tracking` installs fresh counters (with the
five cascade keys) and clears the history while leaving `last_forecast`
alone, so a post-reset call whose validation or cascade fails still
returns the pre-reset forecast value, not the 100.0 baseline. -/
theorem C9_reset_keeps_last_forecast (sq sq2 : ℚ → ℚ)
    (o1 o2 : String → Outcome) (df1 df2 : Option DataFrame) (v : FVal)
    (h1 : ((forecast sq o1 df1 initState).2).last_forecast = some v)
    (h2 : (prepareAndValidateData sq2 df2).2.is_valid = false ∨
      (runCascade o2 methodNames
        (resetPerformanceTracking
          (forecast sq o1 df1 initState).2).model_performance).1 =
        CascadeRes.failed) :
    (resetPerformanceTracking
      (forecast sq o1 df1 initState).2).model_performance = resetPerf ∧
    (resetPerformanceTracking
      (forecast sq o1 df1 initState).2).forecast_history = [] ∧
    (resetPerformanceTracking
      (forecast sq o1 df1 initState).2).last_forecast = some v ∧
    (forecast sq2 o2 df2
      (resetPerformanceTracking (forecast sq o1 df1 initState).2)).1 = v := by
  refine ⟨rfl, rfl, h1, ?_⟩
  rw [forecast_fail_returns_fallback sq2 o2 df2 _ h2]
  have hlast : (resetPerformanceTracking
      (forecast sq o1 df1 initState).2).last_forecast = some v := h1
  simp [getFallbackForecast, hlast]

/-- C9 witness: a successful 50.0 forecast, a reset, then a failing call
returning 50.0. -/
theorem C9_witness :
    ((forecast sqrtZero oracle50 (some df5) initState).2).last_forecast =
      some (FVal.num 50) ∧
    (forecast sqrtZero oracleRaisesAll none
      (resetPerformanceTracking
        (forecast sqrtZero oracle50 (some df5) initState).2)).1 =
      FVal.num 50 :=
  ⟨by decide,
   (C9_reset_keeps_last_forecast sqrtZero sqrtZero oracle50 oracleRaisesAll
     (some df5) none (FVal.num 50) (by decide) (Or.inl (by decide))).2.2.2⟩

lemma reachable_inv (st : AgentState) (h : Reachable st) :
    st.forecast_history ≠ [] → st.last_forecast.isSome = true := by
  induction h with
  | init => intro hc; exact absurd rfl hc
  | step_forecast sq oracle df hst ih =>
    rename_i st0
    rcases forecast_snd_cases sq oracle df st0 with hc | ⟨p2, hc⟩ |
      ⟨v, m, c, p2, hc, _⟩
    · rw [hc]; exact ih
    · rw [hc]; exact ih
    · rw [hc]
      intro _
      rfl
  | step_reset hst ih =>
    intro hc
    exact absurd rfl hc
  | step_confidence sq df hst ih =>
    rw [getForecastConfidence_snd]
    exact ih
  | step_report hst ih =>
    exact ih

/-- C10: in every reachable engine state, a non-empty history implies a
stored `last_forecast`, so the fallback resolver's second branch (mean
of recent history) can never fire: the resolver returns the stored
forecast when present and the 100.0 baseline otherwise. -/
theorem C10_history_mean_branch_dead (st : AgentState) (h : Reachable st) :
    (st.forecast_history ≠ [] → st.last_forecast.isSome = true) ∧
    fallbackBranch st ≠ 2 ∧
    getFallbackForecast st = st.last_forecast.getD (FVal.num 100) := by
  have hinv := reachable_inv st h
  have hkey : st.last_forecast = none → st.forecast_history.isEmpty = true := by
    intro hl
    cases hie : st.forecast_history.isEmpty with
    | true => rfl
    | false =>
      have hne : st.forecast_history ≠ [] := by
        intro hc
        rw [hc] at hie
        cases hie
      have hs := hinv hne
      rw [hl] at hs
      simp at hs
  refine ⟨hinv, ?_, ?_⟩
  · cases hl : st.last_forecast with
    | some v => simp [fallbackBranch, hl]
    | none => simp [fallbackBranch, hl, hkey hl]
  · cases hl : st.last_forecast with
    | some v => simp [getFallbackForecast, hl]
    | none => simp [getFallbackForecast, hl, hkey hl]

/-- C10 witness: the theorem at the constructed state. -/
theorem C10_witness :
    (initState.forecast_history ≠ [] →
      initState.last_forecast.isSome = true) ∧
    fallbackBranch initState ≠ 2 ∧
    getFallbackForecast initState =
      initState.last_forecast.getD (FVal.num 100) :=
  C10_history_mean_branch_dead initState Reachable.init
